import Mathlib

/-!
# A shallow embedding of gocurl's connection-establishment pipeline

This file embeds, definition by definition, the parts of the gocurl
repository that the verified properties talk about:

* `internal/client/splittls` (`splitTLSConn`, its `isClientHello` heuristic
  and its `Write` method) — the `--tls-split-hello` logic;
* `internal/config` (`parseTLSSplitHello`, the ECH-related option wiring of
  `ParseConfig`);
* `internal/client` (`createDialFunc` — the dialer chain,
  `createTLSConfig`, the TLS dispatch in `DialTLSContext`);
* `internal/client/connectto` (`CreateDialFunc`);
* `internal/resolve` (`Resolver.LookupHost`, `Resolver.lookupFromCfg`,
  `dnsLookupAll`, `dnsLookup`, `Resolver.LookupECHConfigs`);
* `internal/client/cfcrypto` (the ECH-configuration acquisition and TLS
  parameter assembly of `Handshake`).

Go byte slices are embedded as `List Nat`, Go `int` as `Int`, fallible
operations as `Option`/`Except`, and a Go slice expression `b[lo:hi]` as a
partial operation that is `none` exactly when Go would panic (the model
takes `cap(b) = len(b)`, which is the capacity of a freshly allocated
buffer).  Side effects on the wrapped network connection are made explicit
as a trace of events (`Event.write`, `Event.sleep`).
-/

set_option autoImplicit false

namespace Gocurl

/-! ## Byte buffers and Go slicing -/

/-- A byte buffer (`[]byte`).  Byte values are 0–255; the embedded code
never writes bytes, so we do not enforce the bound. -/
abbrev Bytes := List Nat

/-- The Go slice expression `b[lo:hi]` with `cap(b) = len(b)`: defined (and
equal to the elements from `lo` inclusive to `hi` exclusive) when
`0 ≤ lo ≤ hi ≤ len(b)`, a run-time panic — modelled as `none` — otherwise. -/
def goSlice (b : Bytes) (lo hi : Int) : Option Bytes :=
  if 0 ≤ lo ∧ lo ≤ hi ∧ hi ≤ (b.length : Int) then
    some ((b.drop lo.toNat).take (hi - lo).toNat)
  else
    none

/-! ## `splittls`: the `--tls-split-hello` connection wrapper

From `splitTLSConn` in `internal/client/splittls/splittls.go`
(`src/internal/client/cfcrypto/cfcrypto.go`, lines 168–253 of the
concatenated source). -/

/-- An observable action performed on the underlying (base) connection. -/
inductive Event where
  /-- A single `baseConn.Write(chunk)` call. -/
  | write (chunk : Bytes)
  /-- A `time.Sleep` of `ms` milliseconds. -/
  | sleep (ms : Int)
  deriving DecidableEq, Repr

/-- The mutable state of a `splitTLSConn`.  `CreateDialFunc` initialises
`firstChunkSize` and `delay` from the configuration and leaves `writeCnt`
and `splitDone` at their zero values (`0`, `false`). -/
structure SplitTLSConn where
  /-- Go `firstChunkSize`: the size of the first chunk of ClientHello. -/
  firstChunkSize : Int
  /-- Go `delay`: time to wait in milliseconds before the second part. -/
  delay : Int
  /-- Go `writeCnt`: the number of `Write` calls so far. -/
  writeCnt : Int
  /-- Go `splitDone`: per its doc comment, this is meant to become true after
  the first split; the Go code declares and reads it but never assigns it. -/
  splitDone : Bool
  deriving DecidableEq, Repr

/-- Go `splitTLSConn.isClientHello`: the ClientHello heuristic.  Reads the
state *after* `Write` has incremented `writeCnt`. -/
def isClientHello (c : SplitTLSConn) (b : Bytes) : Bool :=
  if c.writeCnt > 5 ∨ c.splitDone = true ∨ b.length < 6 then
    false
  else if b.getD 0 0 ≠ 0x16 then
    false
  else if b.getD 1 0 ≠ 0x03 then
    false
  else if b.getD 5 0 ≠ 0x01 then
    false
  else
    true

/-- Go `splitTLSConn.Write`.  Returns the updated connection state, the byte
count `n` reported to the caller, and the trace of actions on the base
connection; `none` models a run-time panic (an out-of-range slice
expression).  Underlying writes are modelled as succeeding in full, which
is the success case all stated properties are about. -/
def splitWrite (c : SplitTLSConn) (b : Bytes) :
    Option (SplitTLSConn × Int × List Event) :=
  let c := { c with writeCnt := c.writeCnt + 1 }
  if isClientHello c b then
    -- chunks := [][]byte{b[:c.firstChunkSize], b[c.firstChunkSize:]}
    match goSlice b 0 c.firstChunkSize, goSlice b c.firstChunkSize (b.length : Int) with
    | some chunk1, some chunk2 =>
        some (c, (chunk1.length : Int) + (chunk2.length : Int),
          [Event.write chunk1]
            ++ (if c.delay > 0 then [Event.sleep c.delay] else [])
            ++ [Event.write chunk2])
    | _, _ => none
  else
    some (c, (b.length : Int), [Event.write b])

/-! ## `config`: `parseTLSSplitHello`

From `internal/config` (`src/unnamed/part_015`, lines 486–504).  The
helpers model `strings.SplitN(s, sep, 2)` and `strconv.Atoi`. -/

/-- The numeric value of a list of decimal digit characters. -/
def digitsToNat (cs : List Char) : Nat :=
  cs.foldl (fun acc c => acc * 10 + (c.toNat - 48)) 0

/-- Go `strconv.Atoi`: an optional sign followed by at least one decimal
digit; anything else is an error (`none`).  64-bit overflow is not
modelled — the inputs of interest are small. -/
def goAtoi (s : String) : Option Int :=
  match s.data with
  | [] => none
  | c :: rest =>
    let signAndDigits : Bool × List Char :=
      if c = '-' then (true, rest)
      else if c = '+' then (false, rest)
      else (false, c :: rest)
    let neg := signAndDigits.1
    let ds := signAndDigits.2
    if ds.length = 0 then none
    else if ds.all (fun d => d.isDigit) then
      some (if neg then -(digitsToNat ds : Int) else (digitsToNat ds : Int))
    else none

/-- Split a character list at the first occurrence of `sep`: the part
before it and, when `sep` occurs, the part after it. -/
def splitFirstChar (sep : Char) : List Char → List Char × Option (List Char)
  | [] => ([], none)
  | c :: rest =>
    if c = sep then ([], some rest)
    else
      let r := splitFirstChar sep rest
      (c :: r.1, r.2)

/-- Go `strings.SplitN(s, sep, 2)` for a one-character separator: at most one
split, at the first occurrence of `sep`. -/
def goSplitN2 (s : String) (sep : Char) : List String :=
  match splitFirstChar sep s.data with
  | (before, none) => [String.mk before]
  | (before, some after) => [String.mk before, String.mk after]

/-- Go `parseTLSSplitHello`: parses the `--tls-split-hello` value
`CHUNKSIZE:DELAY` into `(chunkSize, delay)`.  No range check is applied to
either number beyond what `Atoi` does. -/
def parseTLSSplitHello (s : String) : Option (Int × Int) :=
  let parts := goSplitN2 s ':'
  if parts.length ≠ 2 then none
  else
    match goAtoi (parts.getD 0 ""), goAtoi (parts.getD 1 "") with
    | some chunkSize, some delay => some (chunkSize, delay)
    | _, _ => none

/-! ## `client.createDialFunc`: the dialer chain

From `createDialFunc` in `internal/client`
(`src/internal/client/cfcrypto/cfcrypto.go`, lines 387–422).  The chain is
embedded as a syntax tree recording which wrapper encloses which, which is
exactly the structure the Go code builds by reassigning `dial`. -/

/-- The configuration fields `createDialFunc` reads. -/
structure DialCfg where
  /-- Whether `cfg.ProxyURL != nil`. -/
  hasProxyURL : Bool
  /-- Go `cfg.ConnectTo`, the `--connect-to` redirect map. -/
  connectTo : List (String × String)
  /-- Go `cfg.TLSSplitChunkSize`. -/
  tlsSplitChunkSize : Int
  /-- Go `cfg.TLSSplitDelay`. -/
  tlsSplitDelay : Int
  deriving DecidableEq, Repr

/-- The dialer chain as built by `createDialFunc`: each constructor is one
wrapping stage, with `inner` the stage it delegates to. -/
inductive DialChain where
  /-- Go `dialer.NewDirect(...)`: resolve and connect. -/
  | direct
  /-- Go `proxy.NewProxyDialer(...)` wrapping `inner`. -/
  | proxyStage (inner : DialChain)
  /-- Go `connectto.CreateDialFunc(m, inner, ...)`. -/
  | connectToStage (m : List (String × String)) (inner : DialChain)
  /-- Go `splittls.CreateDialFunc(chunkSize, delay, inner, ...)`. -/
  | tlsSplitStage (chunkSize delay : Int) (inner : DialChain)
  deriving DecidableEq, Repr

/-- Go `createDialFunc`: starts from the direct dialer and wraps it with the
optional stages, in the fixed order the Go code applies them. -/
def createDialFunc (cfg : DialCfg) : DialChain :=
  let d := DialChain.direct
  let d := if cfg.hasProxyURL then DialChain.proxyStage d else d
  let d := if cfg.connectTo.length > 0 then DialChain.connectToStage cfg.connectTo d else d
  if cfg.tlsSplitChunkSize > 0 then
    DialChain.tlsSplitStage cfg.tlsSplitChunkSize cfg.tlsSplitDelay d
  else d

/-- The name of a dialer-chain stage. -/
inductive Stage where
  | direct
  | proxyStage
  | connectToStage
  | tlsSplitStage
  deriving DecidableEq, Repr

/-- The stages of a chain, listed from the outermost wrapper inwards. -/
def stagesOf : DialChain → List Stage
  | .direct => [Stage.direct]
  | .proxyStage inner => Stage.proxyStage :: stagesOf inner
  | .connectToStage _ inner => Stage.connectToStage :: stagesOf inner
  | .tlsSplitStage _ _ inner => Stage.tlsSplitStage :: stagesOf inner

/-! ## `resolve`: the resolver

From `internal/resolve/resolve.go`.  `net.IP` is a byte list.  A DNS
upstream is modelled by its observable behaviour: what `dns.Exchange`
yields for a given queried hostname and query type. -/

/-- An IP address (`net.IP`): its bytes. -/
abbrev IP := List Nat

/-- DNS query types used by the resolver: `dns.TypeA`, `dns.TypeAAAA`,
`dns.TypeHTTPS`. -/
inductive QType where
  | qA
  | qAAAA
  | qHTTPS
  deriving DecidableEq, Repr

/-- A parameter in an HTTPS record's service-binding value list:
either an `ech` parameter (`dns.SVCB_ECHCONFIG`) carrying raw bytes, or
anything else. -/
inductive SVCBVal where
  | echConfigVal (data : Bytes)
  | otherVal
  deriving DecidableEq, Repr

/-- A resource record in a DNS answer section: `dns.A`, `dns.AAAA`,
`dns.HTTPS`, or any other record type (ignored by the resolver). -/
inductive RR where
  | a (ip : IP)
  | aaaa (ip : IP)
  | https (vals : List SVCBVal)
  | otherRR
  deriving DecidableEq, Repr

/-- The outcome of one `dns.Exchange` with one upstream: a transport-level
error, or a response with a response code and an answer section.
`rcode = 0` is `dns.RcodeSuccess`. -/
inductive DNSResult where
  | transportError (e : String)
  | response (rcode : Int) (answers : List RR)
  deriving DecidableEq, Repr

/-- A DNS upstream's behaviour: the result of exchanging a query for the
given hostname and query type with it. -/
abbrev Upstream := String → QType → DNSResult

/-- The error values the resolver builds (`errors` from golibs plus
`fmt.Errorf`), kept as structured data so that wrapping is visible. -/
inductive Err where
  /-- Go `ErrEmptyResponse`. -/
  | emptyResponse
  /-- A transport error propagated from `dns.Exchange`. -/
  | transport (e : String)
  /-- Go `fmt.Errorf("dns response %s code from %s: %s", ...)`. -/
  | rcodeErr (qt : QType) (rcode : Int)
  /-- Go `errors.Annotate(inner, ...)`: a message wrapped around an error. -/
  | annotated (inner : Err)
  /-- An ECH unmarshalling error from `ctls.UnmarshalECHConfigs`. -/
  | echParse (msg : String)
  /-- Go `errors.List("dns lookup", errs...)`. -/
  | listErr (errs : List Err)
  /-- Go `errors.Join(errs...)`. -/
  | joined (errs : List Err)

/-- An ECH configuration record (`ctls.ECHConfig`): kept abstract as its
raw bytes. -/
abbrev ECHConfig := List Nat

/-- First-match association-list lookup, the model of reading a Go map
(whose keys are unique). -/
def assocLookup {β : Type} (m : List (String × β)) (k : String) : Option β :=
  match m with
  | [] => none
  | (k', v) :: rest => if k' = k then some v else assocLookup rest k

/-- The environment a `Resolver` runs in: the configuration fields it
reads, the behaviour of the upstream servers in `r.addrs` (in list order),
and the external `net.ParseIP` / `ctls.UnmarshalECHConfigs` functions.
`parseIP` returns the address already normalised to 4-byte form for IPv4,
as `LookupHost` does with `To4`. -/
structure ResolverEnv where
  /-- Go `net.ParseIP` composed with the `To4` normalisation. -/
  parseIP : String → Option IP
  /-- Go `cfg.Resolve`, the `--resolve` override map. -/
  resolveCfg : List (String × List IP)
  /-- Go `cfg.ECHConfigs`, the pre-configured ECH configurations. -/
  echConfigs : List ECHConfig
  /-- The DNS upstreams (`r.addrs`), tried in list order. -/
  upstreams : List Upstream
  /-- Go `ctls.UnmarshalECHConfigs`: parses one `ech` parameter's bytes. -/
  unmarshalECHConfigs : Bytes → Except String (List ECHConfig)

/-- Go `Resolver.lookupFromCfg`: the exact hostname first, then the `"*"`
wildcard, after an emptiness short-circuit. -/
def lookupFromCfg (resolveCfg : List (String × List IP)) (hostname : String) :
    Option (List IP) :=
  if resolveCfg.length = 0 then none
  else
    match assocLookup resolveCfg hostname with
    | some addrs => some addrs
    | none => assocLookup resolveCfg "*"

/-- Go `dnsLookup`: one exchange with one upstream; errors when the exchange
fails, when the response code is not success, or when the answer section
is empty. -/
def dnsLookup (hostname : String) (qt : QType) (u : Upstream) :
    Except Err (List RR) :=
  match u hostname qt with
  | .transportError e => .error (.transport e)
  | .response rcode answers =>
    if rcode ≠ 0 then .error (.rcodeErr qt rcode)
    else if answers.length = 0 then .error (.annotated .emptyResponse)
    else .ok answers

/-- The loop of `dnsLookupAll`, carrying the errors accumulated so far. -/
def dnsLookupAllGo (hostname : String) (qt : QType) :
    List Upstream → List Err → Except Err (List RR)
  | [], errs => .error (.listErr errs)
  | u :: rest, errs =>
    match dnsLookup hostname qt u with
    | .error e => dnsLookupAllGo hostname qt rest (errs ++ [e])
    | .ok answers => .ok answers

/-- Go `dnsLookupAll`: try each upstream in order until one returns a
successful, non-empty response; otherwise aggregate every error. -/
def dnsLookupAll (hostname : String) (qt : QType) (ups : List Upstream) :
    Except Err (List RR) :=
  dnsLookupAllGo hostname qt ups []

/-- The `switch` in `LookupHost`'s answer loop: collect `A` and `AAAA`
payloads, in answer order, ignoring other record types. -/
def extractIPs (answers : List RR) : List IP :=
  answers.foldl
    (fun acc rr =>
      match rr with
      | .a ip => acc ++ [ip]
      | .aaaa ip => acc ++ [ip]
      | _ => acc)
    []

/-- Go `Resolver.LookupHost`: IP literals short-circuit, then the `--resolve`
overrides, then one pass per query type over the upstreams, merging the
addresses found by both passes; an empty merge is an error joining
`ErrEmptyResponse` with every accumulated per-upstream error. -/
def LookupHost (env : ResolverEnv) (hostname : String) : Except Err (List IP) :=
  match env.parseIP hostname with
  | some ip => .ok [ip]
  | none =>
    match lookupFromCfg env.resolveCfg hostname with
    | some addrs => .ok addrs
    | none =>
      let aPass : List IP × List Err :=
        match dnsLookupAll hostname .qA env.upstreams with
        | .error e => ([], [e])
        | .ok answers => (extractIPs answers, [])
      let aaaaPass : List IP × List Err :=
        match dnsLookupAll hostname .qAAAA env.upstreams with
        | .error e => ([], [e])
        | .ok answers => (extractIPs answers, [])
      let ipAddresses := aPass.1 ++ aaaaPass.1
      let errs := aPass.2 ++ aaaaPass.2
      if ipAddresses.length = 0 then
        .error (.joined [.emptyResponse, .joined errs])
      else
        .ok ipAddresses

/-- The extraction loop of `LookupECHConfigs`: for every HTTPS record, for
every `ech` service-binding parameter, unmarshal it; invalid parameters
are recorded as errors, valid ones contribute their configurations. -/
def extractECHConfigs (env : ResolverEnv) (answers : List RR) :
    List ECHConfig × List Err :=
  answers.foldl
    (fun acc rr =>
      match rr with
      | .https vals =>
        vals.foldl
          (fun acc2 v =>
            match v with
            | .echConfigVal data =>
              match env.unmarshalECHConfigs data with
              | .error msg => (acc2.1, acc2.2 ++ [Err.echParse msg])
              | .ok cs => (acc2.1 ++ cs, acc2.2)
            | .otherVal => acc2)
          acc
      | _ => acc)
    ([], [])

/-- Go `Resolver.LookupECHConfigs`: pre-configured configurations are
returned without any DNS exchange; otherwise an HTTPS-record query runs
through the same upstream fallback, and zero extracted configurations is
an error joining `ErrEmptyResponse` with the per-record parse errors. -/
def LookupECHConfigs (env : ResolverEnv) (hostname : String) :
    Except Err (List ECHConfig) :=
  if env.echConfigs.length > 0 then .ok env.echConfigs
  else
    match dnsLookupAll hostname .qHTTPS env.upstreams with
    | .error e => .error e
    | .ok answers =>
      let extracted := extractECHConfigs env answers
      if extracted.1.length = 0 then
        .error (.joined [.emptyResponse, .joined extracted.2])
      else
        .ok extracted.1

/-! ## `connectto.CreateDialFunc`

From `internal/client/connectto/connectto.go`, lines 14–29: the returned
dial function rewrites the address through the redirect map (when present)
and delegates everything else to the base dial unchanged. -/

/-- The dial function returned by `connectto.CreateDialFunc`, over an
arbitrary base dial result type. -/
def connectToDialFunc {α : Type} (connectTo : List (String × String))
    (baseDial : String → String → α) : String → String → α :=
  fun network addr =>
    match assocLookup connectTo addr with
    | some v => baseDial network v
    | none => baseDial network addr

/-! ## `client.createTLSConfig` and the TLS dispatch

From `createTLSConfig` (`src/internal/client/cfcrypto/cfcrypto.go`, lines
457–511) and `clientDialer.DialTLSContext` (lines 315–332). -/

/-- The configuration fields read when building the TLS config and
choosing the handshake path.  `isWebSocketURL` stands for
`websocket.IsWebSocket(cfg.RequestURL)` (a predicate on the request URL
scheme), `experiments` for `cfg.Experiments` (a map keyed by experiment
name; `"pq"` is `config.ExpPostQuantum`), and `connectTo` is carried to
show what the TLS config does *not* depend on. -/
structure ClientCfg where
  /-- Go `cfg.TLSServerName`, the `--tls-servername` override (`""` unset). -/
  tlsServerName : String
  /-- Go `cfg.TLSMinVersion`. -/
  tlsMinVersion : Int
  /-- Go `cfg.TLSMaxVersion`. -/
  tlsMaxVersion : Int
  /-- Go `cfg.TLSCiphers`. -/
  tlsCiphers : List Int
  /-- Go `cfg.Insecure`. -/
  insecure : Bool
  /-- Go `cfg.TLSRandom`. -/
  tlsRandom : Bytes
  /-- Go `websocket.IsWebSocket(cfg.RequestURL)`. -/
  isWebSocketURL : Bool
  /-- Go `cfg.ForceHTTP11`. -/
  forceHTTP11 : Bool
  /-- Go `cfg.ForceHTTP2`. -/
  forceHTTP2 : Bool
  /-- Go `cfg.ForceHTTP3`. -/
  forceHTTP3 : Bool
  /-- Go `cfg.ECH`. -/
  ech : Bool
  /-- Go `cfg.ECHGrease`. -/
  echGrease : Bool
  /-- Go `cfg.Experiments` (name ↦ optional value). -/
  experiments : List (String × String)
  /-- Go `cfg.ConnectTo` (not read by `createTLSConfig`). -/
  connectTo : List (String × String)

/-- The fields of the `tls.Config` built by `createTLSConfig` that the
embedded code goes on to read.  `hasCustomRandom` stands for
`tlsConfig.Rand != nil`. -/
structure GoTLSConfig where
  serverName : String
  minVersion : Int
  maxVersion : Int
  cipherSuites : List Int
  insecureSkipVerify : Bool
  hasCustomRandom : Bool
  nextProtos : List String
  deriving DecidableEq, Repr

/-- Go `createTLSConfig`: server name from the URL hostname unless
`--tls-servername` overrides it; ALPN forced by WebSocket or the protocol
force flags, defaulting to `h2, http/1.1`. -/
def createTLSConfig (hostname : String) (cfg : ClientCfg) : GoTLSConfig :=
  let serverName := if cfg.tlsServerName ≠ "" then cfg.tlsServerName else hostname
  let nextProtos : List String :=
    if cfg.isWebSocketURL then ["http/1.1"]
    else if cfg.forceHTTP11 then ["http/1.1"]
    else if cfg.forceHTTP2 then ["h2"]
    else if cfg.forceHTTP3 then ["h3"]
    else []
  { serverName := serverName
    minVersion := cfg.tlsMinVersion
    maxVersion := cfg.tlsMaxVersion
    cipherSuites := cfg.tlsCiphers
    insecureSkipVerify := cfg.insecure
    hasCustomRandom := cfg.tlsRandom.length = 32
    nextProtos := if nextProtos.length = 0 then ["h2", "http/1.1"] else nextProtos }

/-- Whether the post-quantum experiment is enabled:
`_, postQuantum := cfg.Experiments[config.ExpPostQuantum]`. -/
def hasPostQuantum (cfg : ClientCfg) : Bool :=
  (assocLookup cfg.experiments "pq").isSome

/-- The two handshake variants `DialTLSContext` can run. -/
inductive HSPath where
  /-- Go `handshakeTLS`: the standard-library `crypto/tls` handshake. -/
  | plain
  /-- Go `handshakeCTLS`: the Cloudflare-fork (`cfcrypto.Handshake`) path. -/
  | enhanced
  deriving DecidableEq, Repr

/-- The dispatch in `clientDialer.DialTLSContext`:
`if d.cfg.ECH || d.cfg.ECHGrease || postQuantum { handshakeCTLS } else { handshakeTLS }`. -/
def dialTLSPath (cfg : ClientCfg) : HSPath :=
  if cfg.ech || cfg.echGrease || hasPostQuantum cfg then .enhanced else .plain

/-- The ECH-related option wiring in `ParseConfig`
(`src/unnamed/part_015`, lines 376–384): `cfg.ECH` starts as `opts.ECH`
and is forced to `true` when `--echconfig` is non-empty. -/
def echEnabledFromOpts (optsECH : Bool) (optsECHConfig : String) : Bool :=
  optsECH || optsECHConfig ≠ ""

/-- A handshake invocation as `DialTLSContext` performs it: which of the
two variants runs, carrying the `tls.Config` handed to it — `d.tlsConfig`
in both cases: `tls.Client(conn, d.tlsConfig)` on the plain path,
`cfcrypto.Handshake(conn, d.tlsConfig, ...)` on the enhanced one. -/
inductive HandshakeCall where
  /-- Go `handshakeTLS(conn)` over the given session parameters. -/
  | plainTLS (params : GoTLSConfig)
  /-- Go `handshakeCTLS(conn)` over the given session parameters. -/
  | cloudflareTLS (params : GoTLSConfig)
  deriving DecidableEq, Repr

/-- The TLS session parameters a handshake call receives. -/
def HandshakeCall.params : HandshakeCall → GoTLSConfig
  | .plainTLS p => p
  | .cloudflareTLS p => p

/-- Go `newDialer` plus `clientDialer.DialTLSContext`
(`src/internal/client/cfcrypto/cfcrypto.go`, lines 295–332): the TLS
session parameters are assembled exactly once, by `createTLSConfig` in
`newDialer`, and the single dispatch point hands that one `d.tlsConfig`
to exactly one of the two handshake variants. -/
def dialTLSContext (hostname : String) (cfg : ClientCfg) : HandshakeCall :=
  let tlsConfig := createTLSConfig hostname cfg
  if cfg.ech || cfg.echGrease || hasPostQuantum cfg then
    .cloudflareTLS tlsConfig
  else
    .plainTLS tlsConfig

/-! ## `cfcrypto.Handshake`: ECH-configuration acquisition

From `Handshake` (`src/internal/client/cfcrypto/cfcrypto.go`, lines
48–125): the fields of the `ctls.Config` this development reasons about,
assembled once per connection, together with the warning produced when
best-effort ECH discovery fails. -/

/-- The `ctls.Config` fields assembled by `Handshake`. -/
structure CTLSConf where
  serverName : String
  echEnabled : Bool
  clientECHConfigs : List ECHConfig
  /-- Whether post-quantum curves were put in `CurvePreferences`. -/
  postQuantumCurves : Bool

/-- The ECH-configuration acquisition and `ctls.Config` assembly of
`Handshake`: when `cfg.ECH` is set, `LookupECHConfigs` is consulted and a
failure is only a logged warning (returned here as the second component);
the handshake then proceeds with whatever configurations were found. -/
def handshakeConf (env : ResolverEnv) (cfg : ClientCfg) (serverName : String) :
    CTLSConf × Option Err :=
  let acquired : List ECHConfig × Option Err :=
    if cfg.ech then
      match LookupECHConfigs env serverName with
      | .ok cs => (cs, none)
      | .error e => ([], some e)
    else ([], none)
  ({ serverName := serverName
     echEnabled := cfg.ech || cfg.echGrease
     clientECHConfigs := if acquired.1.length > 0 then acquired.1 else []
     postQuantumCurves := hasPostQuantum cfg },
   acquired.2)

/-! ## Supporting lemmas -/

/-- The ClientHello heuristic holds exactly when the (already incremented)
write counter is within the window, no split is recorded, and the buffer
is long enough with the three magic bytes in place. -/
theorem isClientHello_eq_true_iff (c : SplitTLSConn) (b : Bytes) :
    isClientHello c b = true ↔
      c.writeCnt ≤ 5 ∧ c.splitDone = false ∧ 6 ≤ b.length ∧
        b.getD 0 0 = 0x16 ∧ b.getD 1 0 = 0x03 ∧ b.getD 5 0 = 0x01 := by
  unfold isClientHello
  split_ifs with hA hB hC hD
  · simp only [false_iff]
    rintro ⟨hw, hsd, hlen, -, -, -⟩
    rcases hA with h | h | h
    · omega
    · simp [h] at hsd
    · omega
  · simp only [false_iff]
    rintro ⟨-, -, -, hx, -, -⟩
    exact hB hx
  · simp only [false_iff]
    rintro ⟨-, -, -, -, hx, -⟩
    exact hC hx
  · simp only [false_iff]
    rintro ⟨-, -, -, -, -, hx⟩
    exact hD hx
  · push_neg at hA hB hC hD
    simp only [true_iff]
    obtain ⟨hw5, hsd, hlen6⟩ := hA
    exact ⟨by omega, by simpa using hsd, by omega, hB, hC, hD⟩

/-- Go `b[0:hi]` is the `hi`-element head of `b` when `0 ≤ hi ≤ len(b)`. -/
theorem goSlice_zero (b : Bytes) (hi : Int) (h0 : 0 ≤ hi)
    (hh : hi ≤ (b.length : Int)) :
    goSlice b 0 hi = some (b.take hi.toNat) := by
  unfold goSlice
  rw [if_pos ⟨le_refl 0, h0, hh⟩]
  simp

/-- Go `b[lo:len(b)]` drops the `lo`-element head of `b` when
`0 ≤ lo ≤ len(b)`. -/
theorem goSlice_to_length (b : Bytes) (lo : Int) (h0 : 0 ≤ lo)
    (hl : lo ≤ (b.length : Int)) :
    goSlice b lo (b.length : Int) = some (b.drop lo.toNat) := by
  unfold goSlice
  rw [if_pos ⟨h0, hl, le_refl _⟩]
  congr 1
  apply List.take_of_length_le
  simp only [List.length_drop]
  omega

/-- An out-of-range head slice: `b[0:hi]` panics when `len(b) < hi`. -/
theorem goSlice_oob (b : Bytes) (hi : Int) (hh : (b.length : Int) < hi) :
    goSlice b 0 hi = none := by
  unfold goSlice
  rw [if_neg]
  push_neg
  intro _ _
  omega

/-- Go `splitWrite` on a literal state, with the `let` and the record update
reduced: the form the proofs below case on. -/
theorem splitWrite_eq (cs d w : Int) (sd : Bool) (b : Bytes) :
    splitWrite ⟨cs, d, w, sd⟩ b =
      (if isClientHello ⟨cs, d, w + 1, sd⟩ b then
        match goSlice b 0 cs, goSlice b cs (b.length : Int) with
        | some chunk1, some chunk2 =>
            some (⟨cs, d, w + 1, sd⟩, (chunk1.length : Int) + (chunk2.length : Int),
              [Event.write chunk1]
                ++ (if d > 0 then [Event.sleep d] else [])
                ++ [Event.write chunk2])
        | _, _ => none
      else some (⟨cs, d, w + 1, sd⟩, (b.length : Int), [Event.write b])) := rfl

/-! ## Theorems -/

/-- C1 (code bug evidence).  A fresh split connection with chunk size 3
and no delay is given the same minimal ClientHello-matching buffer twice.
The first `Write` splits it — and the resulting state differs from the
fresh one only in `writeCnt`, because `Write` never sets `splitDone` — so
the second `Write`, starting from exactly the post-split state, splits the
buffer *again* into two underlying writes instead of passing it through as
a single write.  This contradicts the `splitDone` field's own
documentation ("set to true when we encounter the first TLS packet and
split it"): no assignment to it exists. -/
theorem splitWrite_resplit_after_first_split :
    splitWrite ⟨3, 0, 0, false⟩ [0x16, 0x03, 0, 0, 0, 0x01] =
      some (⟨3, 0, 1, false⟩, 6,
        [Event.write [0x16, 0x03, 0], Event.write [0, 0, 0x01]]) ∧
    splitWrite ⟨3, 0, 1, false⟩ [0x16, 0x03, 0, 0, 0, 0x01] =
      some (⟨3, 0, 2, false⟩, 6,
        [Event.write [0x16, 0x03, 0], Event.write [0, 0, 0x01]]) := by
  constructor <;> rfl

/-- C2.  Any write of a buffer matching the ClientHello heuristic
(first byte `0x16`, second `0x03`, sixth `0x01`, length at least 6) whose
length exceeds the positive chunk size, within the inspected write window
and before any split, produces exactly two underlying writes — first the
chunk-size-long head, then the remainder — with the configured delay slept
between them exactly when the delay is positive, and reports the full
buffer length as the byte count; the two chunks have lengths `c` and
`n - c`. -/
theorem splitWrite_splits_matching_clienthello
    (cs d w : Int) (b : Bytes)
    (hcs : 0 < cs) (hlt : cs < (b.length : Int)) (hlen : 6 ≤ b.length)
    (h0 : b.getD 0 0 = 0x16) (h1 : b.getD 1 0 = 0x03) (h5 : b.getD 5 0 = 0x01)
    (hw : w + 1 ≤ 5) :
    splitWrite ⟨cs, d, w, false⟩ b =
      some (⟨cs, d, w + 1, false⟩, (b.length : Int),
        [Event.write (b.take cs.toNat)]
          ++ (if d > 0 then [Event.sleep d] else [])
          ++ [Event.write (b.drop cs.toNat)]) ∧
    (b.take cs.toNat).length = cs.toNat ∧
    (b.drop cs.toNat).length = b.length - cs.toNat := by
  have hcsn : cs.toNat ≤ b.length := by omega
  have htake : (b.take cs.toNat).length = cs.toNat := by
    simp only [List.length_take]
    omega
  have hdrop : (b.drop cs.toNat).length = b.length - cs.toNat := by
    simp only [List.length_drop]
  refine ⟨?_, htake, hdrop⟩
  have hhello : isClientHello ⟨cs, d, w + 1, false⟩ b = true := by
    rw [isClientHello_eq_true_iff]
    exact ⟨hw, rfl, hlen, h0, h1, h5⟩
  have hslice1 : goSlice b 0 cs = some (b.take cs.toNat) := goSlice_zero b cs (by omega) (by omega)
  have hslice2 : goSlice b cs (b.length : Int) = some (b.drop cs.toNat) :=
    goSlice_to_length b cs (by omega) (by omega)
  have hn : ((b.take cs.toNat).length : Int) + ((b.drop cs.toNat).length : Int) =
      (b.length : Int) := by
    rw [htake, hdrop]
    omega
  rw [splitWrite_eq, if_pos hhello, hslice1, hslice2, ← hn]

/-- The spec's example buffer: a 300-byte ClientHello-shaped payload. -/
def specHelloBuf : Bytes :=
  [0x16, 0x03, 0x03, 0, 0, 0x01] ++ List.replicate 294 0

/-- Go `specHelloBuf` has 300 bytes. -/
theorem specHelloBuf_length : specHelloBuf.length = 300 := by
  unfold specHelloBuf
  rw [List.length_append, List.length_replicate]
  rfl

/-- Witness for C2: the spec's own example — chunk size 5, no delay, a
300-byte buffer whose first bytes are a valid ClientHello header — is
split into a 5-byte underlying write followed immediately by a 295-byte
one (no sleep event), with 300 reported to the caller. -/
theorem splitWrite_splits_matching_clienthello_witness :
    splitWrite ⟨5, 0, 0, false⟩ specHelloBuf =
      some (⟨5, 0, 0 + 1, false⟩, (specHelloBuf.length : Int),
        [Event.write (specHelloBuf.take (5 : Int).toNat)]
          ++ (if (0 : Int) > 0 then [Event.sleep 0] else [])
          ++ [Event.write (specHelloBuf.drop (5 : Int).toNat)]) ∧
    (specHelloBuf.take (5 : Int).toNat).length = (5 : Int).toNat ∧
    (specHelloBuf.drop (5 : Int).toNat).length = specHelloBuf.length - (5 : Int).toNat :=
  splitWrite_splits_matching_clienthello 5 0 0 specHelloBuf
    (by decide)
    (by rw [specHelloBuf_length]; decide)
    (by rw [specHelloBuf_length]; decide)
    (by decide) (by decide) (by decide) (by decide)

/-- C3.  For every configuration, the chain built by `createDialFunc`
lists its stages, outermost first, as: TLS-Split when the chunk size is
positive, then Connect-To when the map is non-empty, then Proxy when a
proxy URL is set, then always Direct innermost.  In particular, with only
Proxy and TLS-Split enabled, Proxy sits inside TLS-Split. -/
theorem createDialFunc_stage_order (cfg : DialCfg) :
    stagesOf (createDialFunc cfg) =
      (if cfg.tlsSplitChunkSize > 0 then [Stage.tlsSplitStage] else [])
        ++ (if cfg.connectTo.length > 0 then [Stage.connectToStage] else [])
        ++ (if cfg.hasProxyURL then [Stage.proxyStage] else [])
        ++ [Stage.direct] := by
  unfold createDialFunc
  split_ifs <;> simp_all [stagesOf]

/-- C10.  The configuration layer accepts any chunk size
(`parseTLSSplitHello` applies no upper bound), and a write of a buffer
that matches the ClientHello heuristic but is shorter than the configured
chunk size — still within the inspected window — evaluates the slice
`b[:c]` past the end of the buffer: `Write` panics (`none`) instead of
returning an error or passing the buffer through. -/
theorem splitWrite_panics_on_short_matching_buffer
    (s : String) (cs d w : Int) (b : Bytes)
    (_hparse : parseTLSSplitHello s = some (cs, d))
    (hlen : 6 ≤ b.length) (hshort : (b.length : Int) < cs)
    (h0 : b.getD 0 0 = 0x16) (h1 : b.getD 1 0 = 0x03) (h5 : b.getD 5 0 = 0x01)
    (hw : w + 1 ≤ 5) :
    splitWrite ⟨cs, d, w, false⟩ b = none := by
  have hhello : isClientHello ⟨cs, d, w + 1, false⟩ b = true := by
    rw [isClientHello_eq_true_iff]
    exact ⟨hw, rfl, hlen, h0, h1, h5⟩
  rw [splitWrite_eq, if_pos hhello, goSlice_oob b cs (by omega)]

/-- Witness for C10: `--tls-split-hello 1000:0` parses to chunk size 1000,
and writing the minimal 6-byte matching buffer through a fresh split
connection configured with it panics. -/
theorem splitWrite_panics_on_short_matching_buffer_witness :
    parseTLSSplitHello "1000:0" = some (1000, 0) ∧
    splitWrite ⟨1000, 0, 0, false⟩ [0x16, 0x03, 0, 0, 0, 0x01] = none := by
  have hp : parseTLSSplitHello "1000:0" = some (1000, 0) := by decide
  exact ⟨hp,
    splitWrite_panics_on_short_matching_buffer "1000:0" 1000 0 0
      [0x16, 0x03, 0, 0, 0, 0x01] hp (by decide) (by decide) (by decide)
      (by decide) (by decide) (by decide)⟩

/-- C4.  For a hostname that is not an IP literal and is covered by
the `--resolve` override map, `LookupHost` returns exactly the overridden
list — the exact-hostname entry when present, the `"*"` wildcard entry
otherwise — and this holds for *every* upstream behaviour, i.e. no DNS
upstream is consulted. -/
theorem lookupHost_override (env : ResolverEnv) (hostname : String)
    (hip : env.parseIP hostname = none) :
    (∀ addrs, assocLookup env.resolveCfg hostname = some addrs →
      LookupHost env hostname = .ok addrs) ∧
    (assocLookup env.resolveCfg hostname = none →
      ∀ waddrs, assocLookup env.resolveCfg "*" = some waddrs →
        LookupHost env hostname = .ok waddrs) := by
  have hNonNil : ∀ {β : Type} (m : List (String × β)) (k : String) (v : β),
      assocLookup m k = some v → m.length ≠ 0 := by
    intro β m k v h
    cases m with
    | nil => simp [assocLookup] at h
    | cons p rest => simp
  constructor
  · intro addrs hexact
    unfold LookupHost
    rw [hip]
    unfold lookupFromCfg
    rw [if_neg (hNonNil env.resolveCfg hostname addrs hexact), hexact]
  · intro hexact waddrs hwild
    unfold LookupHost
    rw [hip]
    unfold lookupFromCfg
    rw [if_neg (hNonNil env.resolveCfg "*" waddrs hwild), hexact, hwild]

/-- The environment of the spec's override example: the map
`{example.org ↦ [127.0.0.1], * ↦ [127.0.0.2]}`, no IP literals, and a
single unreachable upstream (which must never be consulted). -/
def overrideExampleEnv : ResolverEnv :=
  ⟨fun _ => none,
   [("example.org", [[127, 0, 0, 1]]), ("*", [[127, 0, 0, 2]])],
   [], [fun _ _ => .transportError "unreachable"], fun _ => .error "no ech"⟩

/-- Witness for C4, instantiating the spec's example override map: the
exact entry wins for `example.org`, the wildcard serves `example.net`. -/
theorem lookupHost_override_witness :
    LookupHost overrideExampleEnv "example.org" = .ok [[127, 0, 0, 1]] ∧
    LookupHost overrideExampleEnv "example.net" = .ok [[127, 0, 0, 2]] :=
  ⟨(lookupHost_override overrideExampleEnv "example.org" rfl).1 [[127, 0, 0, 1]] rfl,
   (lookupHost_override overrideExampleEnv "example.net" rfl).2 rfl [[127, 0, 0, 2]] rfl⟩

/-- C5.  For a hostname resolved over DNS (no IP literal, no
override): every query type tries the upstreams in listed order — a
transport error, a non-success response code and an empty answer section
each make `dnsLookup` fail, which makes `dnsLookupAll` fall through to the
next upstream while accumulating the error, and the first upstream whose
`dnsLookup` succeeds ends that query type's pass with its answer — and
`LookupHost` merges the addresses extracted from the A pass and the AAAA
pass, in that order, into one result. -/
theorem lookupHost_upstream_fallback :
    (∀ (host : String) (qt : QType) (u : Upstream) (e : String),
      u host qt = .transportError e → dnsLookup host qt u = .error (.transport e)) ∧
    (∀ (host : String) (qt : QType) (u : Upstream) (rc : Int) (ans : List RR),
      u host qt = .response rc ans → rc ≠ 0 →
        dnsLookup host qt u = .error (.rcodeErr qt rc)) ∧
    (∀ (host : String) (qt : QType) (u : Upstream),
      u host qt = .response 0 [] → dnsLookup host qt u = .error (.annotated .emptyResponse)) ∧
    (∀ (host : String) (qt : QType) (u : Upstream) (rest : List Upstream)
        (errs : List Err) (e : Err),
      dnsLookup host qt u = .error e →
        dnsLookupAllGo host qt (u :: rest) errs = dnsLookupAllGo host qt rest (errs ++ [e])) ∧
    (∀ (host : String) (qt : QType) (u : Upstream) (rest : List Upstream)
        (errs : List Err) (ans : List RR),
      dnsLookup host qt u = .ok ans →
        dnsLookupAllGo host qt (u :: rest) errs = .ok ans) ∧
    (∀ (env : ResolverEnv) (host : String) (ansA ansAAAA : List RR),
      env.parseIP host = none → lookupFromCfg env.resolveCfg host = none →
      dnsLookupAll host .qA env.upstreams = .ok ansA →
      dnsLookupAll host .qAAAA env.upstreams = .ok ansAAAA →
      extractIPs ansA ++ extractIPs ansAAAA ≠ [] →
        LookupHost env host = .ok (extractIPs ansA ++ extractIPs ansAAAA)) := by
  refine ⟨?_, ?_, ?_, ?_, ?_, ?_⟩
  · intro host qt u e hu
    unfold dnsLookup
    rw [hu]
  · intro host qt u rc ans hu hrc
    unfold dnsLookup
    rw [hu]
    simp [hrc]
  · intro host qt u hu
    unfold dnsLookup
    rw [hu]
    simp
  · intro host qt u rest errs e hfail
    conv_lhs => unfold dnsLookupAllGo
    rw [hfail]
  · intro host qt u rest errs ans hok
    conv_lhs => unfold dnsLookupAllGo
    rw [hok]
  · intro env host ansA ansAAAA hip hcfg hA hAAAA hne
    unfold LookupHost
    rw [hip, hcfg, hA, hAAAA]
    simp only [List.length_eq_zero]
    rw [if_neg hne]

/-- Witness for C5, instantiating the spec's scenario: the first upstream
answers everything with a server-failure response code (2), the second
returns a valid A record for the A query and a valid AAAA record for the
AAAA query; `LookupHost` succeeds with the second upstream's addresses. -/
theorem lookupHost_upstream_fallback_witness :
    LookupHost
      ⟨fun _ => none, [], [],
       [fun _ _ => .response 2 [],
        fun _ qt =>
          match qt with
          | .qA => .response 0 [.a [10, 0, 0, 1]]
          | .qAAAA => .response 0 [.aaaa [0, 0, 0, 0, 0, 0, 0, 0, 0, 0, 0, 0, 0, 0, 0, 1]]
          | .qHTTPS => .response 0 []],
       fun _ => .error "no ech"⟩
      "example.org" =
      .ok [[10, 0, 0, 1], [0, 0, 0, 0, 0, 0, 0, 0, 0, 0, 0, 0, 0, 0, 0, 1]] :=
  lookupHost_upstream_fallback.2.2.2.2.2 _ "example.org"
    [.a [10, 0, 0, 1]] [.aaaa [0, 0, 0, 0, 0, 0, 0, 0, 0, 0, 0, 0, 0, 0, 0, 1]]
    rfl rfl rfl rfl (by simp [extractIPs])

/-- C6.  When every override entry carries at least one address — the
invariant `parseResolve` establishes for every configuration the program
can build — `LookupHost` never succeeds with an empty list, and every
error it returns is the `empty response` kind joined with the accumulated
per-upstream errors. -/
theorem lookupHost_never_empty_success (env : ResolverEnv) (hostname : String)
    (hres : ∀ p ∈ env.resolveCfg, p.2 ≠ []) :
    (∀ ips, LookupHost env hostname = .ok ips → ips ≠ []) ∧
    (∀ e, LookupHost env hostname = .error e →
      ∃ errs, e = .joined [.emptyResponse, .joined errs]) := by
  have hmem : ∀ (m : List (String × List IP)) (k : String) (v : List IP),
      assocLookup m k = some v → ∃ k', (k', v) ∈ m := by
    intro m
    induction m with
    | nil => intro k v h; simp [assocLookup] at h
    | cons p rest ih =>
      intro k v h
      unfold assocLookup at h
      by_cases hk : p.1 = k
      · rw [if_pos hk] at h
        exact ⟨p.1, by cases h with | refl => simp⟩
      · rw [if_neg hk] at h
        obtain ⟨k', hk'⟩ := ih k v h
        exact ⟨k', List.mem_cons_of_mem _ hk'⟩
  have hcfg : ∀ v, lookupFromCfg env.resolveCfg hostname = some v → v ≠ [] := by
    intro v h
    unfold lookupFromCfg at h
    by_cases hz : env.resolveCfg.length = 0
    · rw [if_pos hz] at h
      cases h
    · rw [if_neg hz] at h
      rcases hx : assocLookup env.resolveCfg hostname with - | addrs
      · rw [hx] at h
        obtain ⟨k', hk'⟩ := hmem _ _ _ h
        exact hres _ hk'
      · rw [hx] at h
        cases h
        obtain ⟨k', hk'⟩ := hmem _ _ _ hx
        exact hres _ hk'
  constructor
  · intro ips hok
    unfold LookupHost at hok
    rcases hpi : env.parseIP hostname with - | ip
    · rw [hpi] at hok
      rcases hcf : lookupFromCfg env.resolveCfg hostname with - | addrs
      · rw [hcf] at hok
        dsimp only at hok
        split_ifs at hok with hemp
        cases hok
        simpa [List.length_eq_zero] using hemp
      · rw [hcf] at hok
        dsimp only at hok
        cases hok
        exact hcfg _ hcf
    · rw [hpi] at hok
      dsimp only at hok
      cases hok
      simp
  · intro e herr
    unfold LookupHost at herr
    rcases hpi : env.parseIP hostname with - | ip
    · rw [hpi] at herr
      rcases hcf : lookupFromCfg env.resolveCfg hostname with - | addrs
      · rw [hcf] at herr
        dsimp only at herr
        split_ifs at herr with hemp
        cases herr
        exact ⟨_, rfl⟩
      · rw [hcf] at herr
        dsimp only at herr
        cases herr
    · rw [hpi] at herr
      dsimp only at herr
      cases herr

/-- Witness for C6: with no overrides and a single upstream that answers
the A query with a CNAME-like (non-address) record and the AAAA query
with an empty-but-successful... rather, a failing response, `LookupHost`
fails with the empty-response join — it does not succeed empty — and on
the success side, an IP-literal lookup yields a non-empty list. -/
theorem lookupHost_never_empty_success_witness :
    ((LookupHost
      ⟨fun _ => none, [], [],
       [fun _ qt => match qt with
         | .qA => .response 0 [.otherRR]
         | _ => .response 2 []],
       fun _ => .error "no ech"⟩
      "example.org" = .error (.joined [.emptyResponse,
        .joined [.listErr [.rcodeErr .qAAAA 2]]])) ∧
      ∃ errs, (Err.joined [.emptyResponse, .joined [.listErr [.rcodeErr .qAAAA 2]]])
        = .joined [.emptyResponse, .joined errs]) ∧
    (LookupHost
      ⟨fun _ => some [127, 0, 0, 1], [], [], [], fun _ => .error "no ech"⟩
      "127.0.0.1" = .ok [[127, 0, 0, 1]] ∧
      [[127, 0, 0, 1]] ≠ ([] : List IP)) :=
  ⟨⟨rfl,
    (lookupHost_never_empty_success
        ⟨fun _ => none, [], [],
         [fun _ qt => match qt with
           | .qA => .response 0 [.otherRR]
           | _ => .response 2 []],
         fun _ => .error "no ech"⟩
        "example.org" (by intro p hp; simp at hp)).2 _ rfl⟩,
   rfl,
   (lookupHost_never_empty_success
      ⟨fun _ => some [127, 0, 0, 1], [], [], [], fun _ => .error "no ech"⟩
      "127.0.0.1" (by intro p hp; simp at hp)).1 _ rfl⟩

/-- A configuration with only the ECH-grease flag set: no ECH flag, no
explicit ECH configuration string (so `ParseConfig` leaves `cfg.ECH`
false), no experiments. -/
def greaseOnlyCfg : ClientCfg :=
  { tlsServerName := "", tlsMinVersion := 0, tlsMaxVersion := 0,
    tlsCiphers := [], insecure := false, tlsRandom := [],
    isWebSocketURL := false, forceHTTP11 := false, forceHTTP2 := false,
    forceHTTP3 := false, ech := echEnabledFromOpts false "",
    echGrease := true, experiments := [], connectTo := [] }

/-- C7 (counterexample).  With only `--echgrease` set, ECH is not
requested (neither the flag nor an explicit configuration, so
`ParseConfig` leaves `cfg.ECH = false`) and the post-quantum experiment is
absent, yet `DialTLSContext` takes the enhanced Cloudflare-fork handshake
path — the claimed "enhanced iff ECH or post-quantum requested"
equivalence fails on this configuration. -/
theorem dialTLSPath_grease_only_counterexample :
    dialTLSPath greaseOnlyCfg = .enhanced ∧
    greaseOnlyCfg.ech = false ∧
    hasPostQuantum greaseOnlyCfg = false := by
  refine ⟨rfl, rfl, rfl⟩

/-- C7 (amended).  The enhanced (Cloudflare-fork) handshake path is
taken if and only if ECH is requested (explicit flag, or explicit ECH
configuration which implies the flag at parse time), the ECH-grease flag
is set, or the post-quantum experiment is requested; otherwise
`DialTLSContext` performs the plain standard-library TLS handshake.
Exactly one of the two handshake variants is executed per connection,
from a single decision point, over TLS session parameters assembled once:
whichever variant the dispatch picks receives exactly the single
`createTLSConfig` assembly made for the request. -/
theorem dialTLSPath_dispatch (hostname : String) (cfg : ClientCfg) (optsECH : Bool)
    (optsECHConfig : String)
    (hparse : cfg.ech = echEnabledFromOpts optsECH optsECHConfig) :
    (dialTLSPath cfg = .enhanced ↔
      (optsECH = true ∨ optsECHConfig ≠ "" ∨ cfg.echGrease = true ∨
        hasPostQuantum cfg = true)) ∧
    (dialTLSPath cfg = .plain ↔ ¬ dialTLSPath cfg = .enhanced) ∧
    (dialTLSPath cfg = .enhanced →
      dialTLSContext hostname cfg = .cloudflareTLS (createTLSConfig hostname cfg)) ∧
    (dialTLSPath cfg = .plain →
      dialTLSContext hostname cfg = .plainTLS (createTLSConfig hostname cfg)) ∧
    (dialTLSContext hostname cfg).params = createTLSConfig hostname cfg := by
  refine ⟨?_, ?_, ?_, ?_, ?_⟩
  · unfold dialTLSPath
    split_ifs with h
    · simp only [Bool.or_eq_true] at h
      simp only [true_iff]
      rcases h with (h | h) | h
      · rw [hparse] at h
        unfold echEnabledFromOpts at h
        rcases Bool.or_eq_true _ _ |>.mp h with h' | h'
        · exact Or.inl h'
        · exact Or.inr (Or.inl (of_decide_eq_true h'))
      · exact Or.inr (Or.inr (Or.inl h))
      · exact Or.inr (Or.inr (Or.inr h))
    · simp only [Bool.or_eq_true, not_or] at h
      constructor
      · intro hx
        cases hx
      · intro hx
        exfalso
        obtain ⟨⟨hech, hgrease⟩, hpq⟩ := h
        rcases hx with h' | h' | h' | h'
        · exact hech (by rw [hparse]; simp [echEnabledFromOpts, h'])
        · exact hech (by rw [hparse]; simp [echEnabledFromOpts, h'])
        · exact hgrease h'
        · exact hpq h'
  · unfold dialTLSPath
    split_ifs <;> simp
  · intro hpath
    unfold dialTLSPath at hpath
    unfold dialTLSContext
    dsimp only
    split_ifs at hpath ⊢ with h
    rfl
  · intro hpath
    unfold dialTLSPath at hpath
    unfold dialTLSContext
    dsimp only
    split_ifs at hpath ⊢ with h
    rfl
  · unfold dialTLSContext
    dsimp only
    split_ifs <;> rfl

/-- A configuration with only `--echconfig` supplied (which implies ECH at
parse time). -/
def echConfigOnlyCfg : ClientCfg :=
  { greaseOnlyCfg with ech := echEnabledFromOpts false "AEX", echGrease := false }

/-- A configuration with none of the ECH or post-quantum options set. -/
def plainCfg : ClientCfg :=
  { greaseOnlyCfg with ech := echEnabledFromOpts false "", echGrease := false }

/-- Witness for C7 (amended): with `--echconfig` supplied (which implies
ECH) and nothing else, the enhanced path is taken and the Cloudflare-fork
variant receives exactly the once-assembled session parameters; with
nothing at all set, the plain path is taken (and is not the enhanced one)
and the executed variant likewise receives the once-assembled
parameters. -/
theorem dialTLSPath_dispatch_witness :
    dialTLSPath echConfigOnlyCfg = .enhanced ∧
    dialTLSPath plainCfg = .plain ∧
    dialTLSContext "example.org" echConfigOnlyCfg =
      .cloudflareTLS (createTLSConfig "example.org" echConfigOnlyCfg) ∧
    (dialTLSContext "example.org" plainCfg).params =
      createTLSConfig "example.org" plainCfg := by
  have h1 := dialTLSPath_dispatch "example.org" echConfigOnlyCfg false "AEX" rfl
  have h2 := dialTLSPath_dispatch "example.org" plainCfg false "" rfl
  have henh : dialTLSPath echConfigOnlyCfg = .enhanced :=
    h1.1.mpr (Or.inr (Or.inl (by decide)))
  have hpln : dialTLSPath plainCfg = .plain :=
    h2.2.1.mpr (by
      intro hx
      rcases h2.1.mp hx with h | h | h | h
      · cases h
      · exact h rfl
      · cases h
      · cases h)
  exact ⟨henh, hpln, h1.2.2.1 henh, h2.2.2.2.2⟩

/-- C8.  ECH discovery is best-effort: pre-configured ECH
configurations are returned by `LookupECHConfigs` without consulting any
upstream; a DNS answer whose records carry no valid ECH parameter makes
`LookupECHConfigs` fail with the empty-response join; and when `cfg.ECH`
is set and discovery fails, `Handshake` records the error only as a
warning and still assembles its TLS parameters with no client ECH
configurations instead of failing. -/
theorem ech_discovery_best_effort :
    (∀ (env : ResolverEnv) (host : String),
      env.echConfigs ≠ [] → LookupECHConfigs env host = .ok env.echConfigs) ∧
    (∀ (env : ResolverEnv) (host : String) (answers : List RR),
      env.echConfigs = [] →
      dnsLookupAll host .qHTTPS env.upstreams = .ok answers →
      (extractECHConfigs env answers).1 = [] →
        LookupECHConfigs env host =
          .error (.joined [.emptyResponse, .joined (extractECHConfigs env answers).2])) ∧
    (∀ (env : ResolverEnv) (cfg : ClientCfg) (sn : String) (e : Err),
      cfg.ech = true → LookupECHConfigs env sn = .error e →
        handshakeConf env cfg sn =
          ({ serverName := sn, echEnabled := true, clientECHConfigs := [],
             postQuantumCurves := hasPostQuantum cfg }, some e)) := by
  refine ⟨?_, ?_, ?_⟩
  · intro env host hne
    unfold LookupECHConfigs
    rw [if_pos]
    exact List.length_pos.mpr hne
  · intro env host answers hempty hdns hext
    unfold LookupECHConfigs
    rw [if_neg (by simp [hempty]), hdns]
    dsimp only
    rw [if_pos (by simp [hext])]
  · intro env cfg sn e hech hfail
    unfold handshakeConf
    rw [hech, hfail]
    simp

/-- An environment with one pre-configured ECH configuration and an
unreachable upstream, and one with no pre-configured configuration whose
single upstream serves an HTTPS record carrying no ECH parameter. -/
def echPreconfiguredEnv : ResolverEnv :=
  ⟨fun _ => none, [], [[0xfe, 0x0d]],
   [fun _ _ => .transportError "unreachable"], fun _ => .error "bad"⟩

/-- The discovery environment for the C8 witness: an HTTPS answer with no
`ech` parameter. -/
def echNoParamEnv : ResolverEnv :=
  ⟨fun _ => none, [], [],
   [fun _ qt =>
      match qt with
      | .qHTTPS => .response 0 [.https [.otherVal]]
      | _ => .response 2 []],
   fun _ => .error "bad"⟩

/-- Witness for C8: the pre-configured environment returns its
configuration untouched; the no-parameter environment fails discovery
with the empty-response join; and a `--ech` handshake over the latter
still assembles ECH-enabled parameters with no client configurations,
with the discovery error downgraded to a warning. -/
theorem ech_discovery_best_effort_witness :
    LookupECHConfigs echPreconfiguredEnv "example.org" = .ok [[0xfe, 0x0d]] ∧
    LookupECHConfigs echNoParamEnv "example.org" =
      .error (.joined [.emptyResponse, .joined []]) ∧
    handshakeConf echNoParamEnv
        { greaseOnlyCfg with ech := true, echGrease := false } "example.org" =
      ({ serverName := "example.org", echEnabled := true, clientECHConfigs := [],
         postQuantumCurves := false },
       some (.joined [.emptyResponse, .joined []])) :=
  ⟨ech_discovery_best_effort.1 echPreconfiguredEnv "example.org" (by simp [echPreconfiguredEnv]),
   ech_discovery_best_effort.2.1 echNoParamEnv "example.org" [.https [.otherVal]]
     rfl rfl rfl,
   ech_discovery_best_effort.2.2 echNoParamEnv _ "example.org"
     (.joined [.emptyResponse, .joined []]) rfl
     (ech_discovery_best_effort.2.1 echNoParamEnv "example.org" [.https [.otherVal]]
       rfl rfl rfl)⟩

/-- C9.  The Connect-To stage passes the mapped address to the inner
dial stage when the redirect map has an entry for the dialed address and
passes the address through unchanged otherwise — and it changes nothing
else: the network is forwarded untouched, and the TLS configuration
(hence the handshake's server name, which is the URL hostname unless the
explicit server-name override replaces it) is the same whatever the
connect-to map holds. -/
theorem connectTo_rewrites_only_address :
    (∀ (α : Type) (baseDial : String → String → α) (m : List (String × String))
        (network addr mapped : String),
      assocLookup m addr = some mapped →
        connectToDialFunc m baseDial network addr = baseDial network mapped) ∧
    (∀ (α : Type) (baseDial : String → String → α) (m : List (String × String))
        (network addr : String),
      assocLookup m addr = none →
        connectToDialFunc m baseDial network addr = baseDial network addr) ∧
    (∀ (hostname : String) (cfg : ClientCfg) (ct : List (String × String)),
      createTLSConfig hostname { cfg with connectTo := ct } =
        createTLSConfig hostname cfg) ∧
    (∀ (hostname : String) (cfg : ClientCfg),
      (createTLSConfig hostname cfg).serverName =
        (if cfg.tlsServerName ≠ "" then cfg.tlsServerName else hostname)) := by
  refine ⟨?_, ?_, ?_, ?_⟩
  · intro α baseDial m network addr mapped hm
    unfold connectToDialFunc
    rw [hm]
  · intro α baseDial m network addr hm
    unfold connectToDialFunc
    rw [hm]
  · intro hostname cfg ct
    cases cfg
    rfl
  · intro hostname cfg
    rfl

/-- Witness for C9: the spec's scenario — `fake.example.com:80` mapped to
a test server — redirects the dial target while the TLS config built for
the `fake.example.com` hostname keeps `fake.example.com` as server name
whatever the connect-to map contains. -/
theorem connectTo_rewrites_only_address_witness :
    connectToDialFunc [("fake.example.com:80", "127.0.0.1:8080")]
        (fun network addr => (network, addr)) "tcp" "fake.example.com:80" =
      ("tcp", "127.0.0.1:8080") ∧
    connectToDialFunc [("fake.example.com:80", "127.0.0.1:8080")]
        (fun network addr => (network, addr)) "tcp" "other.example.com:443" =
      ("tcp", "other.example.com:443") ∧
    createTLSConfig "fake.example.com"
        { greaseOnlyCfg with connectTo := [("fake.example.com:80", "127.0.0.1:8080")] } =
      createTLSConfig "fake.example.com" greaseOnlyCfg ∧
    (createTLSConfig "fake.example.com" greaseOnlyCfg).serverName = "fake.example.com" :=
  ⟨connectTo_rewrites_only_address.1 _ _ _ "tcp" "fake.example.com:80" "127.0.0.1:8080" rfl,
   connectTo_rewrites_only_address.2.1 _ _ _ "tcp" "other.example.com:443" rfl,
   connectTo_rewrites_only_address.2.2.1 "fake.example.com" greaseOnlyCfg _,
   by
     rw [connectTo_rewrites_only_address.2.2.2 "fake.example.com" greaseOnlyCfg]
     rfl⟩

end Gocurl
